import Mathlib

/-!
Verification development for the BTOON core serialization library
(BTOON-project/btoon-core).

This file shallowly embeds the C++ sources under src/ into Lean:

* the tagged value universe of include/btoon/btoon.h (struct Value),
* the wire encoder of src/encoder.cpp (class Encoder),
* the wire decoder of src/decoder.cpp (class Decoder),
* the tabular predicate, the public encode/decode entry points and the
  compression dispatch of src/btoon.cpp and src/compression.cpp.

Bytes are modelled as natural numbers below 256 and byte buffers as lists of
bytes.  Machine integers are modelled as Nat and Int with explicit reduction
modulo two to the word width where the C++ performs conversions.  C++ code
that throws BtoonException is modelled with the Except monad; in addition a
distinguished error oobRead marks the places where the C++ reads memory
outside the input buffer without a prior bounds check (undefined behaviour
in the source; no exception is thrown there).

The host is modelled as little-endian (the source includes immintrin.h and
arm-neon headers and is built for x86-64 and little-endian ARM): a raw
buffer_.insert of the object representation of an integer appends its
little-endian bytes, while the explicit htons/htonl/ntohs/ntohl/ntohll
calls produce big-endian byte order on every host.
-/

namespace Btoon

/-- Truncation of a C++ signed 64-bit value to its unsigned 64-bit object
representation, as in a memcpy or reinterpret-cast of an int64_t. -/
def toNat64 (v : Int) : Nat := (v % 18446744073709551616).toNat

/-- Conversion static_cast to uint8_t of a signed value (reduction mod 256). -/
def toNat8 (v : Int) : Nat := (v % 256).toNat

/-- Reading a byte as int8_t (two's complement). -/
def toInt8 (n : Nat) : Int := if n < 128 then (n : Int) else (n : Int) - 256

/-- Reading a 64-bit unsigned value as int64_t (two's complement wrap). -/
def toInt64 (n : Nat) : Int :=
  if n < 9223372036854775808 then (n : Int) else (n : Int) - 18446744073709551616

/-- First w bytes of the little-endian object representation of a value,
least significant byte first.  This is what buffer_.insert of the first w
bytes of an integer's representation appends on the little-endian host. -/
def leBytes (w : Nat) (v : Nat) : List Nat :=
  (List.range w).map fun i => v / 256 ^ i % 256

/-- Big-endian byte sequence of width w, as produced by htons and htonl. -/
def beBytes (w : Nat) (v : Nat) : List Nat := (leBytes w v).reverse

/-- Big-endian interpretation of a byte sequence, as computed by a memcpy
from the buffer followed by ntohs, ntohl or ntohll. -/
def beToNat (bs : List Nat) : Nat := bs.foldl (fun acc b => acc * 256 + b) 0

/-- Little-endian interpretation of a byte sequence, as computed by a plain
reinterpret-cast read of a multi-byte value on the little-endian host. -/
def leToNat (bs : List Nat) : Nat := beToNat bs.reverse

/- Value universe of include/btoon/btoon.h: struct Value is a variant over
the core types.  The owned variants are modelled; the four borrowed view
variants (StringView, BinaryView, VectorFloatView, VectorDoubleView) are
omitted, no claim mentions them.  Lists nested in a value are represented
by the mutually inductive ValueList and EntryList so that the encoder can
recurse structurally.  Map is std::map with String keys iterated in
ascending byte-lexicographic order; float payloads are carried as IEEE-754
bit patterns (Float is double, VectorFloat elements are 32-bit floats). -/
mutual
/-- Tagged value universe (struct Value of btoon.h). -/
inductive Value where
  | nil
  | bool (b : Bool)
  | int (v : Int)
  | uint (v : Nat)
  | float (bits : Nat)
  | str (s : List Nat)
  | bin (data : List Nat)
  | arr (elems : ValueList)
  | map (entries : EntryList)
  | ext (type : Int) (data : List Nat)
  | timestamp (seconds : Int)
  | date (milliseconds : Int)
  | dateTime (nanoseconds : Int)
  | bigInt (bytes : List Nat)
  | vectorFloat (bits : List Nat)
  | vectorDouble (bits : List Nat)

/-- Ordered sequence of values (Array payload). -/
inductive ValueList where
  | nil
  | cons (v : Value) (rest : ValueList)

/-- Ordered association list of string keys to values (Map payload). -/
inductive EntryList where
  | nil
  | cons (k : List Nat) (v : Value) (rest : EntryList)
end

/-- Conversion from a Lean list literal to a ValueList. -/
def listToVL : List Value → ValueList
  | [] => .nil
  | v :: rest => .cons v (listToVL rest)

/-- Length of a ValueList (data.size() on the Array). -/
def vlLength : ValueList → Nat
  | .nil => 0
  | .cons _ rest => vlLength rest + 1

/-- Conversion of a ValueList to a Lean list, used to state properties. -/
def vlToList : ValueList → List Value
  | .nil => []
  | .cons v rest => v :: vlToList rest

/-- Test of a predicate on every element of a ValueList. -/
def vlAll : ValueList → (Value → Bool) → Bool
  | .nil, _ => true
  | .cons v rest, p => p v && vlAll rest p

/-- Keys of a map in iteration order (std::map iterates them in ascending
byte-lexicographic order, and they are pairwise distinct). -/
def keyList : EntryList → List (List Nat)
  | .nil => []
  | .cons k _ rest => k :: keyList rest

/-- Number of entries of a map (map.size()). -/
def elLength : EntryList → Nat
  | .nil => 0
  | .cons _ _ rest => elLength rest + 1

/-- Byte-lexicographic strict order on strings: std::string operator< has
memcmp semantics, comparing bytes as unsigned values. -/
def strLt : List Nat → List Nat → Bool
  | [], [] => false
  | [], _ :: _ => true
  | _ :: _, [] => false
  | a :: as, b :: bs => if a < b then true else if b < a then false else strLt as bs

/-- Insertion into a std::map modelled as a sorted association list:
map key assignment inserts at the ordered position, and overwrites the
mapped value when the key is already present (last wins). -/
def assocInsert : EntryList → List Nat → Value → EntryList
  | .nil, k, v => .cons k v .nil
  | .cons k' v' rest, k, v =>
    if strLt k k' then .cons k v (.cons k' v' rest)
    else if k == k' then .cons k v rest
    else .cons k' v' (assocInsert rest k v)

/-- NaN test on a 64-bit IEEE-754 bit pattern (exponent all ones, nonzero
fraction). -/
def isNaN64 (bits : Nat) : Bool :=
  bits / 4503599627370496 % 2048 == 2047 && bits % 4503599627370496 != 0

/-- NaN test on a 32-bit IEEE-754 bit pattern. -/
def isNaN32 (bits : Nat) : Bool :=
  bits / 8388608 % 256 == 255 && bits % 8388608 != 0

/-- Equality of C++ doubles on their bit patterns: NaN compares unequal to
everything, positive and negative zero compare equal, all other values
compare equal exactly when their bit patterns coincide. -/
def doubleEq (a b : Nat) : Bool :=
  if isNaN64 a || isNaN64 b then false
  else (a % 9223372036854775808 == 0 && b % 9223372036854775808 == 0) || a == b

/-- Equality of C++ floats on their 32-bit patterns. -/
def floatEq (a b : Nat) : Bool :=
  if isNaN32 a || isNaN32 b then false
  else (a % 2147483648 == 0 && b % 2147483648 == 0) || a == b

/-- Elementwise float equality of two packed vectors of equal length, as in
the == of std::vector over float. -/
def vecEq (elemEq : Nat → Nat → Bool) : List Nat → List Nat → Bool
  | [], [] => true
  | a :: as, b :: bs => elemEq a b && vecEq elemEq as bs
  | _, _ => false

/- Equality of include/btoon/btoon.h Value::operator==: values are equal
when they hold the same variant and their payloads compare equal; in
particular Int and Uint are distinct variants even when numerically equal.
Maps compare as their ordered entry sequences (std::map operator==),
floating payloads compare with the IEEE-754 equality above. -/
mutual
/-- Embedding of Value::operator== of btoon.h. -/
def valueEq : Value → Value → Bool
  | .nil, .nil => true
  | .bool a, .bool b => a == b
  | .int a, .int b => a == b
  | .uint a, .uint b => a == b
  | .float a, .float b => doubleEq a b
  | .str a, .str b => a == b
  | .bin a, .bin b => a == b
  | .arr a, .arr b => vlEq a b
  | .map a, .map b => elEq a b
  | .ext t a, .ext t' b => t == t' && a == b
  | .timestamp a, .timestamp b => a == b
  | .date a, .date b => a == b
  | .dateTime a, .dateTime b => a == b
  | .bigInt a, .bigInt b => a == b
  | .vectorFloat a, .vectorFloat b => vecEq floatEq a b
  | .vectorDouble a, .vectorDouble b => vecEq doubleEq a b
  | _, _ => false

/-- Elementwise equality of two value sequences. -/
def vlEq : ValueList → ValueList → Bool
  | .nil, .nil => true
  | .cons a as, .cons b bs => valueEq a b && vlEq as bs
  | _, _ => false

/-- Elementwise equality of two map entry sequences. -/
def elEq : EntryList → EntryList → Bool
  | .nil, .nil => true
  | .cons k v rest, .cons k' v' rest' => k == k' && valueEq v v' && elEq rest rest'
  | _, _ => false
end

/-- Tabular predicate of src/btoon.cpp is_tabular: a non-empty Array whose
first element is a non-empty Map and whose remaining elements are Maps
with the same number of keys, every key being a key of the first map.
The key set built from the first map by the C++ is its keyList here (the
std::map keys are distinct and sorted). -/
def is_tabular (arr : ValueList) : Bool :=
  match arr with
  | .nil => false
  | .cons first rest =>
    match first with
    | .map m0 =>
      if elLength m0 == 0 then false
      else vlAll rest fun v =>
        match v with
        | .map m =>
          elLength m == elLength m0 && (keyList m).all fun k => (keyList m0).contains k
        | _ => false
    | _ => false

namespace Encoder

/- Embedding of src/encoder.cpp.  Each Encoder::encodeX method appends to
the member buffer; here each function returns the bytes it appends, and
callers concatenate them in the order of the appends. -/

/-- Encoder::encodeNil. -/
def encodeNil : List Nat := [0xc0]

/-- Encoder::encodeBool. -/
def encodeBool (value : Bool) : List Nat := [if value then 0xc3 else 0xc2]

/-- Encoder::encodeInt.  The multi-byte branches append the first 2, 4 or 8
bytes of the int64 object representation with no byte-order conversion:
on the little-endian host these are the little-endian low-order bytes. -/
def encodeInt (value : Int) : List Nat :=
  if -32 ≤ value ∧ value ≤ 127 then [toNat8 value]
  else if -128 ≤ value ∧ value ≤ 127 then [0xd0, toNat8 value]
  else if -32768 ≤ value ∧ value ≤ 32767 then 0xd1 :: leBytes 2 (toNat64 value)
  else if -2147483648 ≤ value ∧ value ≤ 2147483647 then 0xd2 :: leBytes 4 (toNat64 value)
  else 0xd3 :: leBytes 8 (toNat64 value)

/-- Encoder::encodeUint.  As encodeInt, raw object-representation bytes. -/
def encodeUint (value : Nat) : List Nat :=
  if value ≤ 127 then [value % 256]
  else if value ≤ 255 then [0xcc, value % 256]
  else if value ≤ 65535 then 0xcd :: leBytes 2 value
  else if value ≤ 4294967295 then 0xce :: leBytes 4 value
  else 0xcf :: leBytes 8 value

/-- Encoder::encodeFloat: tag 0xcb followed by the 8 raw bytes of the
double (little-endian on the host, no byte swap). -/
def encodeFloat (bits : Nat) : List Nat := 0xcb :: leBytes 8 bits

/-- Encoder::encodeString.  The str16 and str32 length prefixes are the
first 2 or 4 raw bytes of the size_t length (little-endian host order). -/
def encodeString (value : List Nat) : List Nat :=
  let len := value.length
  if len ≤ 31 then (0xa0 + len) :: value
  else if len ≤ 255 then 0xd9 :: (len % 256) :: value
  else if len ≤ 65535 then 0xda :: (leBytes 2 len ++ value)
  else 0xdb :: (leBytes 4 len ++ value)

/-- Encoder::encodeBinary. -/
def encodeBinary (value : List Nat) : List Nat :=
  let len := value.length
  if len ≤ 255 then 0xc4 :: (len % 256) :: value
  else if len ≤ 65535 then 0xc5 :: (leBytes 2 len ++ value)
  else 0xc6 :: (leBytes 4 len ++ value)

/-- Encoder::encodeArray over pre-encoded elements. -/
def encodeArray (elements : List (List Nat)) : List Nat :=
  let len := elements.length
  let header :=
    if len ≤ 15 then [0x90 + len]
    else if len ≤ 65535 then 0xdc :: leBytes 2 len
    else 0xdd :: leBytes 4 len
  header ++ elements.flatten

/-- Encoder::encodeMap over pre-encoded values; the pairs argument is the
std::map of key to encoded bytes, iterated in ascending key order. -/
def encodeMap (pairs : List (List Nat × List Nat)) : List Nat :=
  let len := pairs.length
  let header :=
    if len ≤ 15 then [0x80 + len]
    else if len ≤ 65535 then 0xde :: leBytes 2 len
    else 0xdf :: leBytes 4 len
  header ++ (pairs.map fun pair => encodeString pair.1 ++ pair.2).flatten

/-- Encoder::encodeExtension.  Unlike the other encoders, the ext8, ext16
and ext32 length prefixes go through htons and htonl, so they are genuinely
big-endian; the length written counts only the data bytes, not the type
byte that follows the prefix. -/
def encodeExtension (type : Int) (data : List Nat) : List Nat :=
  let len := data.length
  let header :=
    if len == 1 then [0xd4]
    else if len == 2 then [0xd5]
    else if len == 4 then [0xd6]
    else if len == 8 then [0xd7]
    else if len == 16 then [0xd8]
    else if len ≤ 255 then [0xc7, len % 256]
    else if len ≤ 65535 then 0xc8 :: beBytes 2 len
    else 0xc9 :: beBytes 4 len
  header ++ toNat8 type :: data

/-- Encoder::encodeTimestamp: extension type -1, 8 raw bytes of the int64
(little-endian host order, no byte swap). -/
def encodeTimestamp (timestamp : Int) : List Nat :=
  encodeExtension (-1) (leBytes 8 (toNat64 timestamp))

/-- Encoder::encodeDate: extension type -1 (the same code as Timestamp),
8 raw little-endian bytes of the millisecond count. -/
def encodeDate (milliseconds : Int) : List Nat :=
  encodeExtension (-1) (leBytes 8 (toNat64 milliseconds))

/-- Encoder::encodeDateTime: extension type -2. -/
def encodeDateTime (nanoseconds : Int) : List Nat :=
  encodeExtension (-2) (leBytes 8 (toNat64 nanoseconds))

/-- Encoder::encodeBigInt: extension type 0, payload as given. -/
def encodeBigInt (bytes : List Nat) : List Nat := encodeExtension 0 bytes

/-- Encoder::encodeVectorFloat: extension type -3 whose payload is the raw
object representation of the float vector, 4 little-endian bytes per
element on the host. -/
def encodeVectorFloat (value : List Nat) : List Nat :=
  encodeExtension (-3) (value.map (leBytes 4)).flatten

/-- Encoder::encodeVectorDouble: extension type -4, 8 raw bytes per
element. -/
def encodeVectorDouble (value : List Nat) : List Nat :=
  encodeExtension (-4) (value.map (leBytes 8)).flatten

/-- Column type hint byte written by Encoder::encodeColumnar for the value
found in the first row at each column. -/
def columnTypeHint : Value → Nat
  | .nil => 0
  | .bool _ => 1
  | .int _ => 2
  | .uint _ => 3
  | .float _ => 4
  | .str _ => 5
  | _ => 0

/-- Hint bytes of the schema section: the hint of the first-row value at
each column name, in ascending column order; with the first row stored as
a sorted map this is the hint of each entry value in order. -/
def hintBytes : EntryList → List Nat
  | .nil => []
  | .cons _ v rest => columnTypeHint v :: hintBytes rest

/-- Schema section of the tabular extension payload as built by
Encoder::encodeColumnar: a 4-byte version 1, the big-endian column count
(htonl), then for every column name in ascending order its big-endian
length and bytes, and after all names one hint byte per column.  The
column names pulled from the first row's std::map arrive sorted, so the
std::sort in the source leaves them unchanged. -/
def tabularSchema (m0 : EntryList) : List Nat :=
  [0, 0, 0, 1] ++ beBytes 4 (keyList m0).length
    ++ ((keyList m0).map fun name => beBytes 4 name.length ++ name).flatten
    ++ hintBytes m0

/- Embedding of Encoder::encode (the std::visit dispatch at the bottom of
src/encoder.cpp) together with the recursive parts of encodeColumnar.  For
an Array that satisfies is_tabular, encodeColumnar walks the sorted column
names and encodes first_row.at(name) and row.at(name); since every row is
a std::map whose key sequence is sorted and equal to the sorted column
name list, this visits exactly the entries of each row in storage order,
which is how the cell walk is rendered below. -/
mutual
/-- Embedding of Encoder::encode of src/encoder.cpp. -/
def encode : Value → List Nat
  | .nil => encodeNil
  | .bool b => encodeBool b
  | .int v => encodeInt v
  | .uint v => encodeUint v
  | .float bits => encodeFloat bits
  | .str s => encodeString s
  | .bin data => encodeBinary data
  | .ext type data => encodeExtension type data
  | .timestamp s => encodeTimestamp s
  | .date ms => encodeDate ms
  | .dateTime ns => encodeDateTime ns
  | .bigInt bs => encodeBigInt bs
  | .vectorFloat v => encodeVectorFloat v
  | .vectorDouble v => encodeVectorDouble v
  | .arr l =>
    if is_tabular l then
      match l with
      | .cons (.map m0) _ =>
        encodeExtension (-10)
          (tabularSchema m0 ++ (beBytes 4 (vlLength l) ++ encodeCells l))
      | _ => encodeArray (encodeElems l)
    else encodeArray (encodeElems l)
  | .map m => encodeMap (encodePairs m)

/-- Encoded bytes of each element of an Array, in order. -/
def encodeElems : ValueList → List (List Nat)
  | .nil => []
  | .cons v rest => encode v :: encodeElems rest

/-- Pairs of key and encoded value bytes built from a Map; the source
copies the entries of the input std::map into a second std::map keyed the
same way, which reproduces the same ordered sequence. -/
def encodePairs : EntryList → List (List Nat × List Nat)
  | .nil => []
  | .cons k v rest => (k, encode v) :: encodePairs rest

/-- Data section cells of encodeColumnar: for each row in input order, the
wire encoding of the row's value at every column in ascending column
order, written back to back with no per-column length or grouping (the
source walks rows in the outer loop and columns in the inner loop).  A row
that is not a Map is impossible under the is_tabular guard. -/
def encodeCells : ValueList → List Nat
  | .nil => []
  | .cons (.map m) rest => encodeEntryValues m ++ encodeCells rest
  | .cons _ rest => encodeCells rest

/-- Encoded bytes of every value of a map in entry order. -/
def encodeEntryValues : EntryList → List Nat
  | .nil => []
  | .cons _ v rest => encode v ++ encodeEntryValues rest
end

/-- Encoder::encodeColumnar as a standalone function: it re-tests
is_tabular and falls back to the generic Array encoding when the predicate
fails. -/
def encodeColumnar (data : ValueList) : List Nat :=
  if is_tabular data then
    match data with
    | .cons (.map m0) _ =>
      encodeExtension (-10)
        (tabularSchema m0 ++ (beBytes 4 (vlLength data) ++ encodeCells data))
    | _ => encodeArray (encodeElems data)
  else encodeArray (encodeElems data)

end Encoder

/-- Error outcomes of the decoder of src/decoder.cpp.  All constructors but
the last two correspond to a thrown BtoonException with the quoted message;
oobRead marks a read of bytes outside the buffer performed by the source
without a bounds check (no exception is thrown there, the access is out of
bounds); fuelExhausted is an artifact of the embedding's recursion fuel
and is unreachable for the fuel supplied by Decoder.decode on the inputs
considered in this file. -/
inductive DecErr where
  | overflow
  | unknownMarker
  | invalidIntMarker
  | invalidUintMarker
  | invalidFloatMarker
  | invalidStringMarker
  | invalidBinaryMarker
  | invalidArrayMarker
  | invalidMapMarker
  | invalidExtMarker
  | unsupportedTabularVersion
  | invalidTimestampLength
  | invalidDateLength
  | invalidDateTimeLength
  | invalidVectorFloatLength
  | invalidVectorDoubleLength
  | oobRead
  | fuelExhausted
deriving DecidableEq, Repr

namespace Decoder

/-- Embedding of the static check_overflow helper of src/decoder.cpp: it
throws the exception with message Decoder overflow when pos plus count
exceeds the buffer size. -/
def check_overflow (pos count size : Nat) : Except DecErr Unit :=
  if pos + count > size then .error .overflow else .ok ()

/-- Unchecked single-byte access buffer[pos] of the source: in bounds it
yields the byte, out of bounds it is an out-of-bounds read. -/
def byteAt (buffer : List Nat) (pos : Nat) : Except DecErr Nat :=
  if pos < buffer.length then .ok (buffer.getD pos 0) else .error .oobRead

/-- Unchecked memcpy of count bytes starting at buffer[pos]: in bounds it
yields the bytes, out of bounds it is an out-of-bounds read. -/
def readU (buffer : List Nat) (pos count : Nat) : Except DecErr (List Nat) :=
  if pos + count > buffer.length then .error .oobRead
  else .ok ((buffer.drop pos).take count)

/-- Wrap-around subtraction of one from a size_t value, as in the len - 1
computations of Decoder::decodeExtension where len is an unsigned 64-bit
size: at len = 0 the subtraction wraps to 2 to the 64 minus 1. -/
def sub1 (len : Nat) : Nat :=
  if len == 0 then 18446744073709551615 else len - 1

/-- Lossless conversion of an IEEE-754 single bit pattern to the bit
pattern of the double it converts to, used when Decoder::decodeFloat reads
a 0xca float32 and returns it as the double-valued Float alias. -/
def float32ToDouble (b : Nat) : Nat :=
  let s := b / 2147483648 % 2
  let e := b / 8388608 % 256
  let f := b % 8388608
  if e == 0 then
    if f == 0 then s * 9223372036854775808
    else
      let p := Nat.log2 f
      s * 9223372036854775808 + (p + 874) * 4503599627370496 + (f - 2 ^ p) * 2 ^ (52 - p)
  else if e == 255 then
    s * 9223372036854775808 + 2047 * 4503599627370496 + f * 536870912
  else
    s * 9223372036854775808 + (e + 896) * 4503599627370496 + f * 536870912

/-- Decoder::decodeBool: reads the marker (0xc3 means true). -/
def decodeBool (buffer : List Nat) (pos : Nat) : Except DecErr (Bool × Nat) := do
  let marker ← byteAt buffer pos
  .ok (marker == 0xc3, pos + 1)

/-- Decoder::decodeInt.  Each payload is read with a bounds check, then
memcpy and ntohs, ntohl or ntohll, so it is the big-endian interpretation
of the payload bytes.  The byte-swapping helpers return unsigned values:
the int16 and int32 results are zero-extended (not sign-extended) into the
signed 64-bit return type, and only the int8 and int64 cases produce
negative values. -/
def decodeInt (buffer : List Nat) (pos : Nat) : Except DecErr (Int × Nat) := do
  let marker ← byteAt buffer pos
  let pos := pos + 1
  if marker == 0xd0 then do
    let _ ← check_overflow pos 1 buffer.length
    let bs ← readU buffer pos 1
    .ok (toInt8 (beToNat bs), pos + 1)
  else if marker == 0xd1 then do
    let _ ← check_overflow pos 2 buffer.length
    let bs ← readU buffer pos 2
    .ok ((beToNat bs : Int), pos + 2)
  else if marker == 0xd2 then do
    let _ ← check_overflow pos 4 buffer.length
    let bs ← readU buffer pos 4
    .ok ((beToNat bs : Int), pos + 4)
  else if marker == 0xd3 then do
    let _ ← check_overflow pos 8 buffer.length
    let bs ← readU buffer pos 8
    .ok (toInt64 (beToNat bs), pos + 8)
  else .error .invalidIntMarker

/-- Decoder::decodeUint: bounds-checked big-endian reads of 1, 2, 4 or 8
bytes. -/
def decodeUint (buffer : List Nat) (pos : Nat) : Except DecErr (Nat × Nat) := do
  let marker ← byteAt buffer pos
  let pos := pos + 1
  if marker == 0xcc then do
    let _ ← check_overflow pos 1 buffer.length
    let bs ← readU buffer pos 1
    .ok (beToNat bs, pos + 1)
  else if marker == 0xcd then do
    let _ ← check_overflow pos 2 buffer.length
    let bs ← readU buffer pos 2
    .ok (beToNat bs, pos + 2)
  else if marker == 0xce then do
    let _ ← check_overflow pos 4 buffer.length
    let bs ← readU buffer pos 4
    .ok (beToNat bs, pos + 4)
  else if marker == 0xcf then do
    let _ ← check_overflow pos 8 buffer.length
    let bs ← readU buffer pos 8
    .ok (beToNat bs, pos + 8)
  else .error .invalidUintMarker

/-- Decoder::decodeFloat: big-endian payload; a float32 payload is widened
to double on return.  The result is the bit pattern of the double. -/
def decodeFloat (buffer : List Nat) (pos : Nat) : Except DecErr (Nat × Nat) := do
  let marker ← byteAt buffer pos
  let pos := pos + 1
  if marker == 0xca then do
    let _ ← check_overflow pos 4 buffer.length
    let bs ← readU buffer pos 4
    .ok (float32ToDouble (beToNat bs), pos + 4)
  else if marker == 0xcb then do
    let _ ← check_overflow pos 8 buffer.length
    let bs ← readU buffer pos 8
    .ok (beToNat bs, pos + 8)
  else .error .invalidFloatMarker

/-- Decoder::decodeString: fixstr takes its length from the low five
marker bits, str8, str16 and str32 read a bounds-checked big-endian length
prefix; the payload itself is bounds-checked before it is copied. -/
def decodeString (buffer : List Nat) (pos : Nat) : Except DecErr (List Nat × Nat) := do
  let marker ← byteAt buffer pos
  let pos := pos + 1
  if 0xa0 ≤ marker ∧ marker ≤ 0xbf then do
    let len := marker &&& 0x1f
    let _ ← check_overflow pos len buffer.length
    let s ← readU buffer pos len
    .ok (s, pos + len)
  else if marker == 0xd9 then do
    let _ ← check_overflow pos 1 buffer.length
    let len ← byteAt buffer pos
    let pos := pos + 1
    let _ ← check_overflow pos len buffer.length
    let s ← readU buffer pos len
    .ok (s, pos + len)
  else if marker == 0xda then do
    let _ ← check_overflow pos 2 buffer.length
    let bs ← readU buffer pos 2
    let len := beToNat bs
    let pos := pos + 2
    let _ ← check_overflow pos len buffer.length
    let s ← readU buffer pos len
    .ok (s, pos + len)
  else if marker == 0xdb then do
    let _ ← check_overflow pos 4 buffer.length
    let bs ← readU buffer pos 4
    let len := beToNat bs
    let pos := pos + 4
    let _ ← check_overflow pos len buffer.length
    let s ← readU buffer pos len
    .ok (s, pos + len)
  else .error .invalidStringMarker

/-- Decoder::decodeBinary: bin8, bin16 and bin32 with bounds-checked
length prefix and payload. -/
def decodeBinary (buffer : List Nat) (pos : Nat) : Except DecErr (List Nat × Nat) := do
  let marker ← byteAt buffer pos
  let pos := pos + 1
  if marker == 0xc4 then do
    let _ ← check_overflow pos 1 buffer.length
    let len ← byteAt buffer pos
    let pos := pos + 1
    let _ ← check_overflow pos len buffer.length
    let s ← readU buffer pos len
    .ok (s, pos + len)
  else if marker == 0xc5 then do
    let _ ← check_overflow pos 2 buffer.length
    let bs ← readU buffer pos 2
    let len := beToNat bs
    let pos := pos + 2
    let _ ← check_overflow pos len buffer.length
    let s ← readU buffer pos len
    .ok (s, pos + len)
  else if marker == 0xc6 then do
    let _ ← check_overflow pos 4 buffer.length
    let bs ← readU buffer pos 4
    let len := beToNat bs
    let pos := pos + 4
    let _ ← check_overflow pos len buffer.length
    let s ← readU buffer pos len
    .ok (s, pos + len)
  else .error .invalidBinaryMarker

/-- Decoder::decodeDate: rejects a payload length other than 8, then reads
8 bytes with memcpy and no bounds check and byte-swaps them (ntohll). -/
def decodeDate (buffer : List Nat) (pos len : Nat) : Except DecErr (Value × Nat) := do
  if len ≠ 8 then .error .invalidDateLength
  else do
    let bs ← readU buffer pos 8
    .ok (.date (toInt64 (beToNat bs)), pos + 8)

/-- Decoder::decodeDateTime: same shape as decodeDate. -/
def decodeDateTime (buffer : List Nat) (pos len : Nat) : Except DecErr (Value × Nat) := do
  if len ≠ 8 then .error .invalidDateTimeLength
  else do
    let bs ← readU buffer pos 8
    .ok (.dateTime (toInt64 (beToNat bs)), pos + 8)

/-- Decoder::decodeBigInt: the one extension payload reader with its own
check_overflow before the copy. -/
def decodeBigInt (buffer : List Nat) (pos len : Nat) : Except DecErr (Value × Nat) := do
  let _ ← check_overflow pos len buffer.length
  let bs ← readU buffer pos len
  .ok (.bigInt bs, pos + len)

/-- Splitting a byte run into n little-endian groups of w bytes, as the
reinterpret-cast of the payload into host floats or doubles reads them. -/
def chunksLE (w : Nat) (bs : List Nat) (n : Nat) : List Nat :=
  match n with
  | 0 => []
  | n + 1 => leToNat (bs.take w) :: chunksLE w (bs.drop w) n

/-- Decoder::decodeVectorFloat: rejects a length that is not a multiple of
4, then reinterprets the payload as host (little-endian) floats with no
bounds check. -/
def decodeVectorFloat (buffer : List Nat) (pos len : Nat) : Except DecErr (Value × Nat) := do
  if len % 4 ≠ 0 then .error .invalidVectorFloatLength
  else do
    let bs ← readU buffer pos len
    .ok (.vectorFloat (chunksLE 4 bs (len / 4)), pos + len)

/-- Decoder::decodeVectorDouble: as decodeVectorFloat with 8-byte
elements. -/
def decodeVectorDouble (buffer : List Nat) (pos len : Nat) : Except DecErr (Value × Nat) := do
  if len % 8 ≠ 0 then .error .invalidVectorDoubleLength
  else do
    let bs ← readU buffer pos len
    .ok (.vectorDouble (chunksLE 8 bs (len / 8)), pos + len)

/-- Schema section walk of the tabular branch of Decoder::decodeExtension:
for each column it reads a 4-byte name length, the name bytes and one
column type byte, none of them bounds-checked (the type bytes are stored
but never consulted, a TODO in the source).  Returns the column names. -/
def readSchema (buffer : List Nat) (pos : Nat) : Nat → Except DecErr (List (List Nat) × Nat)
  | 0 => .ok ([], pos)
  | n + 1 => do
    let lenBs ← readU buffer pos 4
    let name_len := beToNat lenBs
    let name ← readU buffer (pos + 4) name_len
    let _ ← byteAt buffer (pos + 4 + name_len)
    let (rest, endPos) ← readSchema buffer (pos + 4 + name_len + 1) n
    .ok (name :: rest, endPos)

end Decoder

/- Recursive part of the decoder.  The C++ decode recurses through
decodeArray, decodeMap and the tabular extension with no depth counter;
the embedding makes the recursion well-founded with a fuel argument that
every function consumes on entry.  Decoder.decode below supplies fuel
proportional to the buffer length, enough for every input appearing in
this file; fuel exhaustion is reported as the distinguished fuelExhausted
outcome and never arises in the theorems. -/
mutual
/-- Embedding of Value Decoder::decode(buffer, pos) of src/decoder.cpp:
reads the marker byte after a bounds check and dispatches on its range.
The switch has no case for markers 0xd9 to 0xdf, so str8, str16, str32,
array16, array32, map16 and map32 at the top of a value fall through to
the Unknown marker error. -/
def decodeVal : Nat → List Nat → Nat → Except DecErr (Value × Nat)
  | 0, _, _ => .error .fuelExhausted
  | fuel + 1, buffer, pos => do
    let _ ← Decoder.check_overflow pos 1 buffer.length
    let marker := buffer.getD pos 0
    if marker ≤ 0x7f then .ok (.uint marker, pos + 1)
    else if 0xe0 ≤ marker then .ok (.int (toInt8 marker), pos + 1)
    else if 0x80 ≤ marker ∧ marker ≤ 0x8f then decodeMapF fuel buffer pos
    else if 0x90 ≤ marker ∧ marker ≤ 0x9f then decodeArrayF fuel buffer pos
    else if 0xa0 ≤ marker ∧ marker ≤ 0xbf then do
      let (s, pos') ← Decoder.decodeString buffer pos
      .ok (.str s, pos')
    else if marker == 0xc0 then .ok (.nil, pos + 1)
    else if marker == 0xc2 ∨ marker == 0xc3 then do
      let (b, pos') ← Decoder.decodeBool buffer pos
      .ok (.bool b, pos')
    else if marker == 0xc4 ∨ marker == 0xc5 ∨ marker == 0xc6 then do
      let (bin, pos') ← Decoder.decodeBinary buffer pos
      .ok (.bin bin, pos')
    else if marker == 0xca ∨ marker == 0xcb then do
      let (bits, pos') ← Decoder.decodeFloat buffer pos
      .ok (.float bits, pos')
    else if 0xcc ≤ marker ∧ marker ≤ 0xcf then do
      let (v, pos') ← Decoder.decodeUint buffer pos
      .ok (.uint v, pos')
    else if 0xd0 ≤ marker ∧ marker ≤ 0xd3 then do
      let (v, pos') ← Decoder.decodeInt buffer pos
      .ok (.int v, pos')
    else if (0xd4 ≤ marker ∧ marker ≤ 0xd8) ∨ marker == 0xc7 ∨ marker == 0xc8
        ∨ marker == 0xc9 then
      decodeExtF fuel buffer pos
    else .error .unknownMarker
termination_by structural fuel => fuel

/-- Decoder::decodeArray: fixarray takes its count from the low four
marker bits, array16 and array32 read a bounds-checked big-endian count
(these two branches are unreachable from the decode dispatch above), then
the elements are decoded in order. -/
def decodeArrayF : Nat → List Nat → Nat → Except DecErr (Value × Nat)
  | 0, _, _ => .error .fuelExhausted
  | fuel + 1, buffer, pos => do
    let marker ← Decoder.byteAt buffer pos
    let pos := pos + 1
    if 0x90 ≤ marker ∧ marker ≤ 0x9f then do
      let (elems, pos') ← decodeElemsF fuel buffer pos (marker &&& 0x0f)
      .ok (.arr (listToVL elems), pos')
    else if marker == 0xdc then do
      let _ ← Decoder.check_overflow pos 2 buffer.length
      let bs ← Decoder.readU buffer pos 2
      let (elems, pos') ← decodeElemsF fuel buffer (pos + 2) (beToNat bs)
      .ok (.arr (listToVL elems), pos')
    else if marker == 0xdd then do
      let _ ← Decoder.check_overflow pos 4 buffer.length
      let bs ← Decoder.readU buffer pos 4
      let (elems, pos') ← decodeElemsF fuel buffer (pos + 4) (beToNat bs)
      .ok (.arr (listToVL elems), pos')
    else .error .invalidArrayMarker
termination_by structural fuel => fuel

/-- Element loop of Decoder::decodeArray. -/
def decodeElemsF : Nat → List Nat → Nat → Nat → Except DecErr (List Value × Nat)
  | 0, _, _, _ => .error .fuelExhausted
  | _ + 1, _, pos, 0 => .ok ([], pos)
  | fuel + 1, buffer, pos, n + 1 => do
    let (v, pos1) ← decodeVal fuel buffer pos
    let (rest, pos2) ← decodeElemsF fuel buffer pos1 n
    .ok (v :: rest, pos2)
termination_by structural fuel => fuel

/-- Decoder::decodeMap: fixmap takes its count from the low four marker
bits (map16 and map32 exist in the function but are unreachable from the
dispatch), then each iteration decodes a key with decodeString and a value
with decode and assigns the pair into the std::map.  No ordering or
duplicate check of any kind is performed: out-of-order keys are reordered
by the map and a repeated key overwrites the earlier value. -/
def decodeMapF : Nat → List Nat → Nat → Except DecErr (Value × Nat)
  | 0, _, _ => .error .fuelExhausted
  | fuel + 1, buffer, pos => do
    let marker ← Decoder.byteAt buffer pos
    let pos := pos + 1
    if 0x80 ≤ marker ∧ marker ≤ 0x8f then do
      let (m, pos') ← decodePairsF fuel buffer pos (marker &&& 0x0f) .nil
      .ok (.map m, pos')
    else if marker == 0xde then do
      let _ ← Decoder.check_overflow pos 2 buffer.length
      let bs ← Decoder.readU buffer pos 2
      let (m, pos') ← decodePairsF fuel buffer (pos + 2) (beToNat bs) .nil
      .ok (.map m, pos')
    else if marker == 0xdf then do
      let _ ← Decoder.check_overflow pos 4 buffer.length
      let bs ← Decoder.readU buffer pos 4
      let (m, pos') ← decodePairsF fuel buffer (pos + 4) (beToNat bs) .nil
      .ok (.map m, pos')
    else .error .invalidMapMarker
termination_by structural fuel => fuel

/-- Entry loop of Decoder::decodeMap. -/
def decodePairsF : Nat → List Nat → Nat → Nat → EntryList → Except DecErr (EntryList × Nat)
  | 0, _, _, _, _ => .error .fuelExhausted
  | _ + 1, _, pos, 0, acc => .ok (acc, pos)
  | fuel + 1, buffer, pos, n + 1, acc => do
    let (key, pos1) ← Decoder.decodeString buffer pos
    let (v, pos2) ← decodeVal fuel buffer pos1
    decodePairsF fuel buffer pos2 n (assocInsert acc key v)
termination_by structural fuel => fuel

/-- Cell loop of the tabular branch: decodes one value per remaining row
from the running position and assigns it under the column name into that
row's map. -/
def decodeCellsF : Nat → List Nat → Nat → List Nat → Nat → Nat → List EntryList →
    Except DecErr (List EntryList × Nat)
  | 0, _, _, _, _, _, _ => .error .fuelExhausted
  | _ + 1, _, pos, _, 0, _, rows => .ok (rows, pos)
  | fuel + 1, buffer, pos, name, remaining + 1, j, rows => do
    let (v, pos') ← decodeVal fuel buffer pos
    decodeCellsF fuel buffer pos' name remaining (j + 1)
      (rows.set j (assocInsert (rows.getD j .nil) name v))
termination_by structural fuel => fuel

/-- Column loop of the tabular branch: reads the unchecked 4-byte column
payload length, decodes num_rows cells of the column, then jumps the
position to the column start plus the declared length. -/
def decodeColsF : Nat → List Nat → Nat → List (List Nat) → Nat → List EntryList →
    Except DecErr (List EntryList × Nat)
  | 0, _, _, _, _, _ => .error .fuelExhausted
  | _ + 1, _, pos, [], _, rows => .ok (rows, pos)
  | fuel + 1, buffer, pos, name :: restNames, num_rows, rows => do
    let lenBs ← Decoder.readU buffer pos 4
    let column_len := beToNat lenBs
    let column_data_start := pos + 4
    let (rows', _) ← decodeCellsF fuel buffer column_data_start name num_rows 0 rows
    decodeColsF fuel buffer (column_data_start + column_len) restNames num_rows rows'
termination_by structural fuel => fuel

/-- Decoder::decodeExtension.  The fixext markers fix the length, ext8,
ext16 and ext32 read a bounds-checked length prefix; the type byte is read
after a bounds check.  The tabular branch then reads its three header
words with plain unchecked memcpy, requires version 1, walks the schema
and rebuilds the rows column by column.  A type of -1 is a Timestamp (the
4-byte form is zero-extended), -2 to -6 dispatch to the date, datetime,
bigint and vector readers with len - 1, and every other type yields a
generic Extension whose data is the len - 1 bytes after the type byte
copied without a bounds check. -/
def decodeExtF : Nat → List Nat → Nat → Except DecErr (Value × Nat)
  | 0, _, _ => .error .fuelExhausted
  | fuel + 1, buffer, pos => do
    let marker ← Decoder.byteAt buffer pos
    let pos := pos + 1
    let (len, pos) ←
      if marker == 0xd4 then pure (1, pos)
      else if marker == 0xd5 then pure (2, pos)
      else if marker == 0xd6 then pure (4, pos)
      else if marker == 0xd7 then pure (8, pos)
      else if marker == 0xd8 then pure (16, pos)
      else if marker == 0xc7 then do
        let _ ← Decoder.check_overflow pos 1 buffer.length
        let b ← Decoder.byteAt buffer pos
        pure (b, pos + 1)
      else if marker == 0xc8 then do
        let _ ← Decoder.check_overflow pos 2 buffer.length
        let bs ← Decoder.readU buffer pos 2
        pure (beToNat bs, pos + 2)
      else if marker == 0xc9 then do
        let _ ← Decoder.check_overflow pos 4 buffer.length
        let bs ← Decoder.readU buffer pos 4
        pure (beToNat bs, pos + 4)
      else .error .invalidExtMarker
    let _ ← Decoder.check_overflow pos 1 buffer.length
    let extTypeByte ← Decoder.byteAt buffer pos
    let ext_type := toInt8 extTypeByte
    let pos := pos + 1
    if ext_type == -10 then do
      let versionBs ← Decoder.readU buffer pos 4
      let version := beToNat versionBs
      let pos := pos + 4
      if version ≠ 1 then .error .unsupportedTabularVersion
      else do
        let colsBs ← Decoder.readU buffer pos 4
        let num_columns := beToNat colsBs
        let pos := pos + 4
        let rowsBs ← Decoder.readU buffer pos 4
        let num_rows := beToNat rowsBs
        let pos := pos + 4
        let (column_names, pos) ← Decoder.readSchema buffer pos num_columns
        let rows := List.replicate num_rows EntryList.nil
        let (rows', pos') ← decodeColsF fuel buffer pos column_names num_rows rows
        .ok (.arr (listToVL (rows'.map Value.map)), pos')
    else if ext_type == -1 then do
      if len ≠ 4 ∧ len ≠ 8 then .error .invalidTimestampLength
      else do
        let seconds ←
          if len == 4 then do
            let bs ← Decoder.readU buffer pos 4
            pure ((beToNat bs : Int))
          else do
            let bs ← Decoder.readU buffer pos 8
            pure (toInt64 (beToNat bs))
        .ok (.timestamp seconds, pos + len)
    else if ext_type == -2 then Decoder.decodeDate buffer pos (Decoder.sub1 len)
    else if ext_type == -3 then Decoder.decodeDateTime buffer pos (Decoder.sub1 len)
    else if ext_type == -4 then Decoder.decodeBigInt buffer pos (Decoder.sub1 len)
    else if ext_type == -5 then Decoder.decodeVectorFloat buffer pos (Decoder.sub1 len)
    else if ext_type == -6 then Decoder.decodeVectorDouble buffer pos (Decoder.sub1 len)
    else do
      let data ← Decoder.readU buffer pos (Decoder.sub1 len)
      .ok (.ext ext_type data, pos + Decoder.sub1 len)
termination_by structural fuel => fuel
end

/-- Fuel supplied to the recursive decoder: ample for every descent chain
of a buffer of this length, since every descent first consumes at least
one byte of input. -/
def decodeFuel (buffer : List Nat) : Nat := (buffer.length + 16) * 4

/-- Embedding of Value Decoder::decode(buffer) of src/decoder.cpp: the
default decoder has security disabled, so it decodes one value from
position zero and returns it, ignoring both the final position and any
trailing bytes. -/
def Decoder.decode (buffer : List Nat) : Except DecErr Value :=
  match decodeVal (decodeFuel buffer) buffer 0 with
  | .ok (v, _) => .ok v
  | .error e => .error e

/-- Compression algorithm enumeration of include/btoon/compression.h
(NONE is 255, ZLIB 0, LZ4 1, ZSTD 2). -/
inductive CompressionAlgorithm where
  | NONE
  | ZLIB
  | LZ4
  | ZSTD
deriving DecidableEq, Repr

/-- Numeric value of the algorithm enumerator, written into the frame. -/
def CompressionAlgorithm.toByte : CompressionAlgorithm → Nat
  | .NONE => 255
  | .ZLIB => 0
  | .LZ4 => 1
  | .ZSTD => 2

/-- EncodeOptions of include/btoon/btoon.h with its defaults: compression
off, level 0, algorithm NONE, tabular detection on. -/
structure EncodeOptions where
  compress : Bool := false
  compression_level : Int := 0
  compression_algorithm : CompressionAlgorithm := CompressionAlgorithm.NONE
  auto_tabular : Bool := true

/-- DecodeOptions of include/btoon/btoon.h: transparent frame unwrapping
(read as options.decompress at the use site in src/btoon.cpp) and strict
mode, both defaulting to true.  The strict flag is never consulted by the
decode path in the sources. -/
structure DecodeOptions where
  auto_decompress : Bool := true
  strict : Bool := true

/-- Errors thrown by the public encode and decode of src/btoon.cpp and by
the compression dispatch of src/compression.cpp, by message. -/
inductive BtoonErr where
  | unsupportedAlgorithm
  | headerTooSmall
  | incorrectMagicNumber
  | compressedSizeMismatch
  | wire (e : DecErr)
deriving DecidableEq, Repr

/-- Outcome of the compress dispatch of src/compression.cpp.  The ZLIB
case calls into the zlib library, whose output this model does not
compute; LZ4 and ZSTD exist only behind the BTOON_WITH_LZ4 and
BTOON_WITH_ZSTD build flags and in the plain build fall to the default
case, which throws Unsupported compression algorithm.  NONE has no case in
any build and always lands in the default throw. -/
inductive CompressResult where
  | externalZlib (data : List Nat) (level : Int)
  | error (e : BtoonErr)
deriving Repr

/-- Embedding of compress of src/compression.cpp (level 0 selects the
zlib default of 6). -/
def compress (algorithm : CompressionAlgorithm) (data : List Nat) (level : Int) :
    CompressResult :=
  match algorithm with
  | .ZLIB => .externalZlib data (if level == 0 then 6 else level)
  | _ => .error .unsupportedAlgorithm

/-- Outcome of the public encode of src/btoon.cpp: plain wire bytes, an
error thrown before any output is produced, or a handoff to the zlib
compressor (frame assembly follows only after the library returns). -/
inductive EncodeResult where
  | ok (bytes : List Nat)
  | externalZlib (encoded_data : List Nat) (level : Int)
  | error (e : BtoonErr)
deriving Repr

/-- Embedding of the public encode of src/btoon.cpp: the value is
serialized by the wire encoder, then, when options.compress is set, handed
to the compress dispatch; a dispatch error propagates and no bytes are
returned.  The visitor used for the uncompressed serialization delegates
to Encoder methods whose definitions are the ones of src/encoder.cpp
embedded above; no theorem below depends on those bytes when compression
is requested. -/
def encode (value : Value) (options : EncodeOptions) : EncodeResult :=
  let encoded_data := Encoder.encode value
  if options.compress then
    match compress options.compression_algorithm encoded_data options.compression_level with
    | .error e => .error e
    | .externalZlib d lvl => .externalZlib d lvl
  else .ok encoded_data

/-- Outcome of the public decode of src/btoon.cpp: a decoded value, an
error, or a handoff of the framed payload to the zlib inflater (the
decompressed-size cross-check and the wire decode follow only after the
library returns). -/
inductive DecodeResult where
  | ok (v : Value)
  | externalZlib (compressed_payload : List Nat) (uncompressed_size : Nat)
  | error (e : BtoonErr)

/-- Embedding of the public decode of src/btoon.cpp.  With the decompress
option set it requires at least the 16-byte frame header, requires the
magic 0x42544F4E, checks the declared compressed size against the payload
length, and dispatches on the algorithm byte (only ZLIB is compiled in;
anything else throws Unsupported compression algorithm); there is no
fallback that treats unframed input as uncompressed.  With the option off
it decodes the buffer directly with the wire decoder.  The strict option
is ignored. -/
def decode (data : List Nat) (options : DecodeOptions) : DecodeResult :=
  if options.auto_decompress then
    if data.length < 16 then .error .headerTooSmall
    else
      let magic := beToNat (data.take 4)
      if magic ≠ 0x42544F4E then .error .incorrectMagicNumber
      else
        let algorithm := data.getD 5 0
        let compressed_size := beToNat ((data.drop 8).take 4)
        let uncompressed_size := beToNat ((data.drop 12).take 4)
        let compressed_payload := data.drop 16
        if compressed_payload.length ≠ compressed_size then .error .compressedSizeMismatch
        else if algorithm == 0 then .externalZlib compressed_payload uncompressed_size
        else .error .unsupportedAlgorithm
  else
    match Decoder.decode data with
    | .ok v => .ok v
    | .error e => .error (.wire e)

/-!
Auxiliary notions and lemmas shared by the theorems below.
-/

/-- Well-formedness of a decoded or caller-built map element: a std::map
never holds two entries with the same key, so the key list of every Map is
without duplicates. -/
def nodupKeys : Value → Bool
  | .map m => decide (keyList m).Nodup
  | _ => true

/-- Correspondence of the ValueList predicate runner with List.all. -/
theorem vlAll_eq_all (l : ValueList) (p : Value → Bool) :
    vlAll l p = (vlToList l).all p := by
  match l with
  | .nil => rfl
  | .cons v rest => simp [vlAll, vlToList, vlAll_eq_all rest p]

/-- Key count of a map equals its entry count. -/
theorem keyList_length (m : EntryList) : (keyList m).length = elLength m := by
  match m with
  | .nil => rfl
  | .cons k v rest => simp [keyList, elLength, keyList_length rest]

/-- A duplicate-free key list contained in a key list of the same length
covers exactly the same keys. -/
theorem sameKeys_of_check (m m0 : EntryList)
    (hnd : (keyList m).Nodup)
    (hlen : elLength m = elLength m0)
    (hsub : ∀ k ∈ keyList m, k ∈ keyList m0) :
    ∀ k, k ∈ keyList m ↔ k ∈ keyList m0 := by
  have hsp : List.Subperm (keyList m) (keyList m0) := hnd.subperm hsub
  have hperm : List.Perm (keyList m) (keyList m0) := by
    apply hsp.perm_of_length_le
    rw [keyList_length, keyList_length, hlen]
  intro k
  exact hperm.mem_iff

/-- Two duplicate-free key lists covering the same keys have the same
length. -/
theorem check_of_sameKeys (m m0 : EntryList)
    (hndm : (keyList m).Nodup) (hnd0 : (keyList m0).Nodup)
    (hiff : ∀ k, k ∈ keyList m ↔ k ∈ keyList m0) :
    elLength m = elLength m0 := by
  have h1 : List.Subperm (keyList m) (keyList m0) := hndm.subperm fun k hk => (hiff k).mp hk
  have h2 : List.Subperm (keyList m0) (keyList m) := hnd0.subperm fun k hk => (hiff k).mpr hk
  have h3 := (h1.antisymm h2).length_eq
  rwa [keyList_length, keyList_length] at h3

/-- Shape of an element accepted by the per-row check of is_tabular: it is
a Map whose entry count matches the first row's and whose keys all occur
among the first row's keys. -/
theorem rowCheck_elim (m0 : EntryList) (v : Value)
    (h : (match v with
      | Value.map m => elLength m == elLength m0 && (keyList m).all fun k => (keyList m0).contains k
      | _ => false) = true) :
    ∃ m, v = Value.map m ∧ elLength m = elLength m0 ∧ ∀ k ∈ keyList m, k ∈ keyList m0 := by
  cases v with
  | map m =>
    simp only [Bool.and_eq_true, beq_iff_eq] at h
    refine ⟨m, rfl, h.1, fun k hk => ?_⟩
    simpa [List.contains] using (List.all_eq_true.mp h.2) k hk
  | nil => simp at h
  | bool b => simp at h
  | int v => simp at h
  | uint v => simp at h
  | float b => simp at h
  | str s => simp at h
  | bin d => simp at h
  | arr l => simp at h
  | ext t d => simp at h
  | timestamp t => simp at h
  | date d => simp at h
  | dateTime d => simp at h
  | bigInt b => simp at h
  | vectorFloat v => simp at h
  | vectorDouble v => simp at h

/-- Nested array value of depth n plus one: n plus one Array constructors
around an empty Array. -/
def nestedArrays : Nat → Value
  | 0 => .arr .nil
  | n + 1 => .arr (.cons (nestedArrays n) .nil)

/-- The two-row uniform-map array of the repository's own tabular tests:
both rows are maps with string keys a and b holding an Int and a one-byte
String. -/
def tabularRows : ValueList :=
  .cons (.map (.cons [0x61] (.int 1) (.cons [0x62] (.str [0x78]) .nil)))
    (.cons (.map (.cons [0x61] (.int 2) (.cons [0x62] (.str [0x79]) .nil))) .nil)

/-!
Claim theorems.
-/

/-- C1.  The claim states that decode(encode(v)) equals v under the
variant-and-payload equality for every Value and every non-lossy option
combination.  The code refutes it: encoding the Value Date 0 emits the
extension type code -1 (the Timestamp code), so decoding returns
Timestamp 0, which the data-model equality distinguishes from Date 0; and
a generic one-byte Extension comes back with an empty payload because the
encoder writes a length that excludes the type byte while the decoder
subtracts the type byte from it.  Both failures are independent of host
byte order. -/
theorem C1_roundtrip_fails_date_decodes_as_timestamp :
    Decoder.decode (Encoder.encode (Value.date 0)) = .ok (Value.timestamp 0) ∧
    valueEq (Value.timestamp 0) (Value.date 0) = false ∧
    Decoder.decode (Encoder.encode (Value.ext 5 [0xaa])) = .ok (Value.ext 5 []) ∧
    valueEq (Value.ext 5 []) (Value.ext 5 [0xaa]) = false := ⟨rfl, rfl, rfl, rfl⟩

/-- C2.  The claim states that decode of any byte sequence of at most one
MiB either returns a Value or fails with a defined error kind and never
reads an index outside the buffer.  The code refutes it: on the three-byte
input 0xc7 0x09 0xfe the decoder reaches decodeDate with a claimed payload
of 8 bytes and copies 8 bytes starting at offset 3 of a 3-byte buffer with
no bounds check, an out-of-bounds read. -/
theorem C2_decoder_reads_past_buffer_end :
    Decoder.decode [0xc7, 0x09, 0xfe] = .error .oobRead := rfl

/-- C3.  The claim states that with auto_decompress enabled any input not
starting with the magic bytes (shorter-than-header inputs included) is
treated as uncompressed and decoded directly.  The code refutes it: with
the decompress flag set, the single byte 0xc0 is rejected as a too-small
header and a 16-byte input without the magic is rejected with the
incorrect-magic error, although the same byte decodes to Nil when the
flag is off. -/
theorem C3_auto_decompress_rejects_nonmagic_input :
    decode [0xc0] ⟨true, true⟩ = .error .headerTooSmall ∧
    decode (0xc0 :: List.replicate 15 0) ⟨true, true⟩ = .error .incorrectMagicNumber ∧
    decode [0xc0] ⟨false, true⟩ = .ok .nil := ⟨rfl, rfl, rfl⟩

set_option maxRecDepth 100000 in
/-- C4.  The claim states that decoding fails with DepthExceeded at the
129th recursive descent under the default max_depth of 128.  The code
refutes it: the decoder keeps no depth counter and its options carry no
max_depth, so 129 nested arrays (128 one-element fixarrays around an empty
fixarray) decode successfully. -/
theorem C4_deep_nesting_decodes_without_depth_error :
    Decoder.decode (List.replicate 128 0x91 ++ [0x90]) = .ok (nestedArrays 128) := rfl

/-- C5.  The claim states that a uniform-map array survives a round trip
through the type -10 tabular extension.  The code refutes it on the
repository's own two-row example: the encoder lays the payload out as
version, column count, all names, all hints, row count, row-major cells,
while the decoder expects version, column count, row count, interleaved
name-and-hint pairs and per-column lengths; on the encoded bytes the
decoder misreads a name length of 0x61000000 and performs an out-of-bounds
read instead of returning the array. -/
theorem C5_tabular_roundtrip_fails_with_oob_read :
    is_tabular tabularRows = true ∧
    Decoder.decode (Encoder.encode (Value.arr tabularRows)) = .error .oobRead := ⟨rfl, rfl⟩

set_option maxRecDepth 10000 in
/-- C6.  The claim states that integer payloads, float payloads and the
16- and 32-bit length prefixes are emitted big-endian.  The code refutes
it for every multi-byte case that does not go through the extension
header: the encoder appends the raw little-endian object representation,
so Uint 300 is encoded as 0xcd 0x2c 0x01 instead of 0xcd 0x01 0x2c, an
int32 payload and a str16 length prefix come out low byte first as
well. -/
theorem C6_multibyte_payloads_are_little_endian :
    Encoder.encodeUint 300 = [0xcd, 0x2c, 0x01] ∧
    beBytes 2 300 = [0x01, 0x2c] ∧
    Encoder.encodeUint 300 ≠ 0xcd :: beBytes 2 300 ∧
    Encoder.encodeInt 70000 = [0xd2, 0x70, 0x11, 0x01, 0x00] ∧
    Encoder.encodeString (List.replicate 300 0x61) = 0xda :: 0x2c :: 0x01 :: List.replicate 300 0x61 :=
  ⟨rfl, rfl, by decide, rfl, rfl⟩

/-- C7.  The claim states that Date, DateTime, BigInt, VectorFloat and
VectorDouble are emitted with extension type codes -2 to -6 so that
decoding reproduces the same variant.  The code refutes it: the encoder
writes type byte 0xff (code -1) for a Date and 0xfd (code -3) for a
VectorFloat, among the shifted codes -1, -2, 0, -3, -4; the decoder maps
code -1 to Timestamp and produces a Date only from code -2, so an encoded
Date decodes as a Timestamp. -/
theorem C7_extension_type_codes_shifted :
    Encoder.encode (Value.date 5) = [0xd7, 0xff, 0x05, 0, 0, 0, 0, 0, 0, 0] ∧
    toNat8 (-1) = 0xff ∧
    toNat8 (-2) = 0xfe ∧
    Decoder.decode [0xd7, 0xff, 0x05, 0, 0, 0, 0, 0, 0, 0] =
      .ok (Value.timestamp 360287970189639680) ∧
    Decoder.decode [0xc7, 0x09, 0xfe, 0, 0, 0, 0, 0, 0, 0, 1] = .ok (Value.date 1) ∧
    Encoder.encode (Value.vectorFloat [0x3f800000]) = [0xd6, 0xfd, 0x00, 0x00, 0x80, 0x3f] :=
  ⟨rfl, rfl, rfl, rfl, rfl, rfl⟩

/-- C8 counterexample.  The claim states that is_tabular returns false for
every Array of size smaller than 2; the code returns true for a
one-element Array holding one non-empty Map. -/
theorem C8_singleton_array_counted_tabular :
    vlLength (ValueList.cons (Value.map (EntryList.cons [0x61] (Value.uint 1) EntryList.nil))
      ValueList.nil) = 1 ∧
    is_tabular (ValueList.cons (Value.map (EntryList.cons [0x61] (Value.uint 1) EntryList.nil))
      ValueList.nil) = true := ⟨rfl, rfl⟩

/-- C8 amended.  For arrays whose Map elements have duplicate-free key
lists (the std::map invariant), is_tabular returns true exactly when the
array is non-empty, its first element is a Map with a non-empty key set,
and every remaining element is a Map with exactly the same key set; no
minimum size of 2 is required. -/
theorem C8_is_tabular_characterization (arr : ValueList)
    (hwf : vlAll arr nodupKeys = true) :
    is_tabular arr = true ↔
      ∃ m0 rest, arr = ValueList.cons (Value.map m0) rest ∧ keyList m0 ≠ [] ∧
        ∀ v ∈ vlToList rest, ∃ m, v = Value.map m ∧
          ∀ k, k ∈ keyList m ↔ k ∈ keyList m0 := by
  cases arr with
  | nil =>
    constructor
    · intro h; exact Bool.noConfusion h
    · rintro ⟨m0, rest, h, -, -⟩; cases h
  | cons first rest =>
    simp only [vlAll, Bool.and_eq_true] at hwf
    obtain ⟨hwfFirst, hwfRest⟩ := hwf
    rw [vlAll_eq_all] at hwfRest
    cases first
    case map m0 =>
      have hnd0 : (keyList m0).Nodup := by simpa [nodupKeys] using hwfFirst
      by_cases hlen0 : elLength m0 = 0
      · constructor
        · intro h
          simp [is_tabular, hlen0] at h
        · rintro ⟨m0', rest', heq, hne, -⟩
          injection heq with h1 h2
          injection h1 with h1
          subst h1
          exact (hne (List.eq_nil_of_length_eq_zero ((keyList_length m0).trans hlen0))).elim
      · have hbe : (elLength m0 == 0) = false := by simpa using hlen0
        simp only [is_tabular, hbe, Bool.false_eq_true, if_false]
        rw [vlAll_eq_all]
        constructor
        · intro hall
          refine ⟨m0, rest, rfl, ?_, ?_⟩
          · intro hnil
            apply hlen0
            rw [← keyList_length, hnil]
            rfl
          · intro v hv
            have hP := (List.all_eq_true.mp hall) v hv
            obtain ⟨m, hm, hl, hsub⟩ := rowCheck_elim m0 v hP
            subst hm
            have hndm : (keyList m).Nodup := by
              have hx := (List.all_eq_true.mp hwfRest) (Value.map m) hv
              simpa [nodupKeys] using hx
            exact ⟨m, rfl, sameKeys_of_check m m0 hndm hl hsub⟩
        · rintro ⟨m0', rest', heq, hne, hprop⟩
          injection heq with h1 h2
          injection h1 with h1
          subst h1; subst h2
          apply List.all_eq_true.mpr
          intro v hv
          obtain ⟨m, hm, hiff⟩ := hprop v hv
          subst hm
          have hndm : (keyList m).Nodup := by
            have hx := (List.all_eq_true.mp hwfRest) (Value.map m) hv
            simpa [nodupKeys] using hx
          simp only [Bool.and_eq_true, beq_iff_eq]
          refine ⟨check_of_sameKeys m m0 hndm hnd0 hiff, ?_⟩
          apply List.all_eq_true.mpr
          intro k hk
          simpa [List.contains] using (hiff k).mp hk
    all_goals
      constructor
      · intro h; exact Bool.noConfusion h
      · rintro ⟨m0, rest', heq, -, -⟩
        injection heq with h1 h2
        exact Value.noConfusion h1

/-- C8 witness.  The characterization applied to the concrete two-row
uniform-map array, with its well-formedness hypothesis discharged by
evaluation. -/
theorem C8_is_tabular_characterization_witness :
    vlAll tabularRows nodupKeys = true ∧
    (is_tabular tabularRows = true ↔
      ∃ m0 rest, tabularRows = ValueList.cons (Value.map m0) rest ∧ keyList m0 ≠ [] ∧
        ∀ v ∈ vlToList rest, ∃ m, v = Value.map m ∧
          ∀ k, k ∈ keyList m ↔ k ∈ keyList m0) :=
  ⟨rfl, C8_is_tabular_characterization tabularRows rfl⟩

/-- C9.  The claim states that in strict mode a map key that is not
strictly greater than its predecessor fails the decode with KeyOrder, or
with DuplicateKey when equal.  The code refutes it: decodeMap performs no
ordering or duplicate check and the strict option is never consulted, so
the map written with key b before key a decodes successfully (reordered
by the std::map) and the map with the key a twice decodes successfully
with the second value winning. -/
theorem C9_key_order_violations_decode_successfully :
    decode [0x82, 0xa1, 0x62, 0x01, 0xa1, 0x61, 0x02] ⟨false, true⟩ =
      .ok (.map (.cons [0x61] (.uint 2) (.cons [0x62] (.uint 1) .nil))) ∧
    decode [0x82, 0xa1, 0x61, 0x01, 0xa1, 0x61, 0x02] ⟨false, true⟩ =
      .ok (.map (.cons [0x61] (.uint 2) .nil)) := ⟨rfl, rfl⟩

/-- C10.  Requesting compression while the compression algorithm keeps its
default NONE throws Unsupported compression algorithm and produces no
output, for every value, level and tabular setting: the compress dispatch
has no case for NONE in any build, so NONE always reaches the default
throw. -/
theorem C10_compress_none_throws_unsupported_algorithm
    (value : Value) (level : Int) (tabular : Bool) :
    encode value ⟨true, level, .NONE, tabular⟩ = .error .unsupportedAlgorithm := rfl

end Btoon
